import Mathlib

/-
Verification of the ENTSO-E congestion-income ingestion core
(src/entsoe_api/{config,client,parser}.py) of the
energy-market-intelligence-platform repository.

Shallow embedding conventions:
  - timestamps are integers (minutes on an abstract axis); pandas
    to_datetime is modelled by an abstract function passed as a parameter;
  - numeric values are rationals; Python float() and pandas to_numeric on
    decimal text are modelled by an executable decimal parser;
  - XML documents are a tree of elements (tag, optional text, children);
    the ElementTree queries used by the code (find on a child tag, find on
    a two-step path, findall on direct children, findall on ".//tag"
    descendants) are embedded below;
  - every raise site of the Python code becomes one constructor of PyError;
  - network and filesystem effects of the client are abstracted as
    function parameters returning Except values.
-/

-- ==============================================================
-- Primitive value parsing (Python int(), float(), pd.to_numeric)
-- ==============================================================

def isSpaceChar (c : Char) : Bool :=
  c == ' ' || c == '\t' || c == '\n' || c == '\r'

def stripChars (l : List Char) : List Char :=
  ((l.dropWhile isSpaceChar).reverse.dropWhile isSpaceChar).reverse

def digitsVal (l : List Char) : Nat :=
  l.foldl (fun a c => a * 10 + (c.toNat - 48)) 0

/-- Model of the Python builtin int() applied to a string: optional
surrounding whitespace, optional sign, then at least one digit. -/
def pyInt? (s : String) : Option Int :=
  let t := stripChars s.data
  let core : Int × List Char :=
    match t with
    | '-' :: r => (-1, r)
    | '+' :: r => (1, r)
    | r => (1, r)
  if core.2 ≠ [] ∧ core.2.all Char.isDigit then
    some (core.1 * (digitsVal core.2 : Int))
  else
    none

def decimalCore (sgn : Int) (l : List Char) : Option ℚ :=
  let ip := l.takeWhile Char.isDigit
  let rest := l.dropWhile Char.isDigit
  match rest with
  | [] => if ip ≠ [] then some (mkRat (sgn * (digitsVal ip : Int)) 1) else none
  | '.' :: frac =>
      if frac.all Char.isDigit ∧ (ip ≠ [] ∨ frac ≠ []) then
        some (mkRat
          (sgn * ((digitsVal ip * 10 ^ frac.length + digitsVal frac : Nat) : Int))
          (10 ^ frac.length))
      else none
  | _ => none

/-- Model of the Python builtin float() (and pandas to_numeric) on decimal
text: optional whitespace and sign, integer part, optional fractional part. -/
def pyFloat? (s : String) : Option ℚ :=
  let t := stripChars s.data
  match t with
  | '-' :: r => decimalCore (-1) r
  | '+' :: r => decimalCore 1 r
  | r => decimalCore 1 r

def lowerChar (c : Char) : Char :=
  if 'A' ≤ c ∧ c ≤ 'Z' then Char.ofNat (c.toNat + 32) else c

/-- Model of Python str.lower() for the ASCII file suffixes involved. -/
def lowerStr (s : String) : String :=
  ⟨s.data.map lowerChar⟩

-- ==============================================================
-- Ascending sort (models pandas sort_index / sort_values)
-- ==============================================================

def insertByKey {α : Type} (key : α → Int) (x : α) : List α → List α
  | [] => [x]
  | y :: ys => if key x ≤ key y then x :: y :: ys else y :: insertByKey key x ys

def sortByKey {α : Type} (key : α → Int) : List α → List α
  | [] => []
  | x :: xs => insertByKey key x (sortByKey key xs)

theorem insertByKey_perm {α : Type} (key : α → Int) (x : α) (l : List α) :
    (insertByKey key x l).Perm (x :: l) := by
  induction l with
  | nil => simp [insertByKey]
  | cons y ys ih =>
      by_cases h : key x ≤ key y
      · simp [insertByKey, h]
      · simp only [insertByKey, if_neg h]
        exact ((ih.cons y).trans (List.Perm.swap x y ys))

theorem sortByKey_perm {α : Type} (key : α → Int) (l : List α) :
    (sortByKey key l).Perm l := by
  induction l with
  | nil => simp [sortByKey]
  | cons x xs ih =>
      exact (insertByKey_perm key x (sortByKey key xs)).trans (ih.cons x)

theorem mem_insertByKey {α : Type} (key : α → Int) (x a : α) (l : List α) :
    a ∈ insertByKey key x l ↔ a = x ∨ a ∈ l := by
  have h := (insertByKey_perm key x l).mem_iff (a := a)
  simpa using h

theorem insertByKey_pairwise {α : Type} (key : α → Int) (x : α) (l : List α)
    (h : l.Pairwise (fun a b => key a ≤ key b)) :
    (insertByKey key x l).Pairwise (fun a b => key a ≤ key b) := by
  induction l with
  | nil => simp [insertByKey]
  | cons y ys ih =>
      rcases List.pairwise_cons.mp h with ⟨hy, hys⟩
      by_cases hxy : key x ≤ key y
      · simp only [insertByKey, if_pos hxy]
        refine List.pairwise_cons.mpr ⟨?_, h⟩
        intro b hb
        rcases List.mem_cons.mp hb with rfl | hb
        · exact hxy
        · exact le_trans hxy (hy b hb)
      · simp only [insertByKey, if_neg hxy]
        refine List.pairwise_cons.mpr ⟨?_, ih hys⟩
        intro b hb
        rcases (mem_insertByKey key x b ys).mp hb with rfl | hb
        · exact le_of_not_le hxy
        · exact hy b hb

theorem sortByKey_pairwise {α : Type} (key : α → Int) (l : List α) :
    (sortByKey key l).Pairwise (fun a b => key a ≤ key b) := by
  induction l with
  | nil => simp [sortByKey]
  | cons x xs ih => exact insertByKey_pairwise key x (sortByKey key xs) ih

theorem insertByKey_map {α β : Type} (key : α → Int) (key' : β → Int)
    (f : α → β) (hk : ∀ a, key' (f a) = key a) (x : α) (l : List α) :
    insertByKey key' (f x) (l.map f) = (insertByKey key x l).map f := by
  induction l with
  | nil => simp [insertByKey]
  | cons y ys ih =>
      by_cases h : key x ≤ key y
      · simp [insertByKey, hk, h]
      · simp [insertByKey, hk, h, ih]

theorem sortByKey_map {α β : Type} (key : α → Int) (key' : β → Int)
    (f : α → β) (hk : ∀ a, key' (f a) = key a) (l : List α) :
    sortByKey key' (l.map f) = (sortByKey key l).map f := by
  induction l with
  | nil => simp [sortByKey]
  | cons x xs ih =>
      simp only [List.map_cons, sortByKey, ih]
      exact insertByKey_map key key' f hk x (sortByKey key xs)

-- ==============================================================
-- XML documents and the ElementTree queries used by parser.py
-- ==============================================================

mutual
inductive Xml where
  | elem (tag : String) (text : Option String) (children : XmlList)
inductive XmlList where
  | nil
  | cons (head : Xml) (tail : XmlList)
end

def XmlList.toList : XmlList → List Xml
  | .nil => []
  | .cons c cs => c :: cs.toList

def XmlList.ofList : List Xml → XmlList
  | [] => .nil
  | c :: cs => .cons c (XmlList.ofList cs)

/-- Convenience constructor for concrete documents. -/
def xmlE (tag : String) (text : Option String) (children : List Xml) : Xml :=
  .elem tag text (XmlList.ofList children)

def Xml.tag : Xml → String
  | .elem t _ _ => t

def Xml.text : Xml → Option String
  | .elem _ tx _ => tx

def Xml.children : Xml → List Xml
  | .elem _ _ cs => cs.toList

mutual
def descsOf : Xml → List Xml
  | .elem _ _ cs => descsList cs
def descsList : XmlList → List Xml
  | .nil => []
  | .cons c cs => c :: (descsOf c ++ descsList cs)
end

/-- ElementTree findall with a ".//tag" path: all proper descendants with
the given tag, in document order. -/
def findallDesc (x : Xml) (t : String) : List Xml :=
  (descsOf x).filter (fun c => c.tag == t)

/-- ElementTree findall with a plain "tag" path: direct children with the
given tag, in document order. -/
def findallChild (x : Xml) (t : String) : List Xml :=
  x.children.filter (fun c => c.tag == t)

/-- ElementTree find with a plain "tag" path: first direct child with the
given tag, if any. -/
def find1 (x : Xml) (t : String) : Option Xml :=
  (findallChild x t).head?

/-- ElementTree find with a two-step "t1/t2" path: for each direct child
tagged t1 in order, its direct children tagged t2 in order; first match. -/
def findPath2 (x : Xml) (t1 t2 : String) : Option Xml :=
  ((findallChild x t1).flatMap (fun c => findallChild c t2)).head?

-- ==============================================================
-- Error model: one constructor per raise site of the Python code
-- ==============================================================

/-- Errors of the embedded code. Each constructor corresponds to one raise
site: xmlParsingError and noTimeSeriesError are the FormatError cases of
the API decoder, noNumericValuesError its EmptyDataError,
cannotParseXmlFile the legacy FormatError, unsupportedFileFormat the
UnsupportedFormatError, contentOrPathRequired the InvalidArgumentError,
intConversionError the unguarded builtin int() failure, keyError the
unguarded mapping lookup failure, and requestFailed the DataSourceError
of the HTTP client. -/
inductive PyError where
  | xmlParsingError
  | noTimeSeriesError
  | noNumericValuesError
  | cannotParseXmlFile (path : String)
  | unsupportedFileFormat (suffix : String)
  | contentOrPathRequired
  | intConversionError (txt : Option String)
  | keyError (key : String)
  | requestFailed (status : Nat) (body : String)
deriving DecidableEq

-- ==============================================================
-- REST API XML decoder (parser.py, parse_entsoe_api_xml)
-- ==============================================================

/-- The ordered candidate value fields probed inside each Point. -/
def CANDIDATE_VALUE_FIELDS : List String :=
  ["quantity", "price.amount", "flowAmount", "amount",
   "quantity_Measure_Unit.name"]

/-- The loop body of extract_point_value over the remaining candidate
tags: a candidate is taken when the child element is present, its text is
neither missing nor empty, and float() succeeds; otherwise the next
candidate is tried. -/
def extractFrom (pt : Xml) : List String → Option ℚ
  | [] => none
  | tag :: rest =>
      match find1 pt tag with
      | none => extractFrom pt rest
      | some node =>
          match node.text with
          | none => extractFrom pt rest
          | some s =>
              if s = "" then extractFrom pt rest
              else
                match pyFloat? s with
                | some v => some v
                | none => extractFrom pt rest

/-- Embedding of extract_point_value. -/
def extract_point_value (pt : Xml) : Option ℚ :=
  extractFrom pt CANDIDATE_VALUE_FIELDS

/-- One canonical output row of the API decoder: timestamp and value. -/
abbrev Row : Type := Int × ℚ

/-- Embedding of Python int(text) applied to the optional text of the
position element: text None or unparseable text raises. -/
def intOfText (t : Option String) : Except PyError Int :=
  match t with
  | none => .error (.intConversionError none)
  | some s =>
      match pyInt? s with
      | some n => .ok n
      | none => .error (.intConversionError (some s))

/-- The inner Point loop of parse_entsoe_api_xml for one period: a point
missing its position element is skipped; a present but unparseable
position aborts with the unguarded int() error; a point whose value
extraction yields nothing is skipped; otherwise the row
(periodStart + 15 * (position - 1), value) is emitted. -/
def pointsRows (period_start : Int) : List Xml → Except PyError (List Row)
  | [] => .ok []
  | pt :: rest =>
      match find1 pt "position" with
      | none => pointsRows period_start rest
      | some pos_node =>
          match intOfText pos_node.text with
          | .error e => .error e
          | .ok pos =>
              match extract_point_value pt with
              | none => pointsRows period_start rest
              | some v =>
                  match pointsRows period_start rest with
                  | .error e => .error e
                  | .ok tail =>
                      .ok ((period_start + 15 * (pos - 1), v) :: tail)

/-- The Period body of parse_entsoe_api_xml: a period without an interval
start element is skipped entirely; otherwise its direct Point children
are processed with periodStart given by to_datetime on the start text. -/
def periodRows (toDT : Option String → Int) (p : Xml) :
    Except PyError (List Row) :=
  match findPath2 p "timeInterval" "start" with
  | none => .ok []
  | some start_node =>
      pointsRows (toDT start_node.text) (findallChild p "Point")

def periodsRows (toDT : Option String → Int) :
    List Xml → Except PyError (List Row)
  | [] => .ok []
  | p :: ps =>
      match periodRows toDT p with
      | .error e => .error e
      | .ok a =>
          match periodsRows toDT ps with
          | .error e => .error e
          | .ok b => .ok (a ++ b)

/-- The TimeSeries loop: for each TimeSeries element, all descendant
Period elements are processed in document order. -/
def seriesRows (toDT : Option String → Int) :
    List Xml → Except PyError (List Row)
  | [] => .ok []
  | ts :: rest =>
      match periodsRows toDT (findallDesc ts "Period") with
      | .error e => .error e
      | .ok a =>
          match seriesRows toDT rest with
          | .error e => .error e
          | .ok b => .ok (a ++ b)

/-- Embedding of parse_entsoe_api_xml. The input is the result of
ET.parse on the bytes: none models bytes that do not parse as XML at
all. toDT models pd.to_datetime on the optional text of a start element.
The final set_index + sort_index is the ascending sort on timestamps. -/
def parse_entsoe_api_xml (toDT : Option String → Int) (doc : Option Xml) :
    Except PyError (List Row) :=
  match doc with
  | none => .error .xmlParsingError
  | some root =>
      let series := findallDesc root "TimeSeries"
      if series.isEmpty then .error .noTimeSeriesError
      else
        match seriesRows toDT series with
        | .error e => .error e
        | .ok all_rows =>
            if all_rows.isEmpty then .error .noNumericValuesError
            else .ok (sortByKey (fun r => r.1) all_rows)

-- ==============================================================
-- DataFrame model and legacy CSV/XML decoder
-- (parser.py, parse_congestion_income_file)
-- ==============================================================

/-- A cell of a loaded table: missing, raw text, a coerced timestamp, or
a coerced numeric value. -/
inductive Cell where
  | null
  | str (s : String)
  | dt (t : Int)
  | num (q : ℚ)
deriving DecidableEq

def Cell.isNull : Cell → Bool
  | .null => true
  | _ => false

structure DataFrame where
  cols : List String
  rows : List (List Cell)
deriving DecidableEq

def colIdx? (df : DataFrame) (c : String) : Option Nat :=
  df.cols.findIdx? (fun x => x == c)

def cellAt (df : DataFrame) (r : List Cell) (c : String) : Cell :=
  match colIdx? df c with
  | some i => r.getD i .null
  | none => .null

/-- Rename columns through a fixed map, keeping unmapped names. -/
def renameCols (m : List (String × String)) (cols : List String) :
    List String :=
  cols.map (fun c => ((m.find? (fun p => p.1 == c)).map (fun p => p.2)).getD c)

def renameDf (m : List (String × String)) (df : DataFrame) : DataFrame :=
  { cols := renameCols m df.cols, rows := df.rows }

def updateAt (i : Nat) (f : Cell → Cell) : List Cell → List Cell
  | [] => []
  | c :: cs =>
      match i with
      | 0 => f c :: cs
      | j + 1 => c :: updateAt j f cs

/-- Apply an elementwise coercion to the named column when present, as
the code does under "if col in df.columns". -/
def coerceIfPresent (c : String) (f : Cell → Cell) (df : DataFrame) :
    DataFrame :=
  match colIdx? df c with
  | some i => { df with rows := df.rows.map (updateAt i f) }
  | none => df

/-- pd.to_datetime with errors coerce, elementwise: unparseable text
becomes null, not an error. -/
def coerceDT (parseDT : String → Option Int) : Cell → Cell
  | .null => .null
  | .str s =>
      match parseDT s with
      | some t => .dt t
      | none => .null
  | c => c

/-- pd.to_numeric with errors coerce, elementwise: unparseable text
becomes null, not an error. -/
def coerceNum : Cell → Cell
  | .null => .null
  | .str s =>
      match pyFloat? s with
      | some q => .num q
      | none => .null
  | c => c

/-- df.dropna with subset Start and RevenueEUR: drops every row whose
Start or RevenueEUR cell is missing; a missing column is a KeyError. -/
def dropnaStartRev (df : DataFrame) : Except PyError DataFrame :=
  match colIdx? df "Start", colIdx? df "RevenueEUR" with
  | some i, some j =>
      .ok { df with rows :=
        (df.rows.filter (fun r =>
          !(r.getD i .null).isNull && !(r.getD j .null).isNull)) }
  | none, _ => .error (.keyError "Start")
  | _, none => .error (.keyError "RevenueEUR")

/-- Projection df with a list of column names: KeyError when one of the
requested columns is absent. -/
def selectCols (cs : List String) (df : DataFrame) :
    Except PyError DataFrame :=
  if cs.all (fun c => (colIdx? df c).isSome) then
    .ok { cols := cs,
          rows := df.rows.map (fun r => cs.map (fun c => cellAt df r c)) }
  else .error (.keyError "column not found")

def cellKey : Cell → Int
  | .dt t => t
  | _ => 0

/-- df.sort_values by one column, ascending. -/
def sortValuesBy (c : String) (df : DataFrame) : Except PyError DataFrame :=
  match colIdx? df c with
  | some i =>
      .ok { df with rows :=
        (sortByKey (fun r => cellKey (r.getD i .null)) df.rows) }
  | none => .error (.keyError c)

/-- The fixed CSV rename map of the code. -/
def csvRenameMap : List (String × String) :=
  [("start", "Start"), ("end", "End"), ("revenue", "RevenueEUR"),
   ("Revenue (EUR)", "RevenueEUR")]

/-- The fixed legacy-XML rename map of the code. -/
def xmlRenameMap : List (String × String) :=
  [("Period.start", "Start"), ("Period.end", "End"),
   ("CongestionIncome.amount", "RevenueEUR")]

/-- A local file as the legacy decoder sees it: a path string, the suffix
of the path, the table pd.read_csv would load when read as delimited
text, and the table pd.read_xml would load (none models a read_xml
failure, which the code catches and reports with the path). -/
structure LocalFile where
  pathStr : String
  suffix : String
  csv : DataFrame
  xmlTab : Option DataFrame

/-- The branch selection of parse_congestion_income_file: pick the
loader by the lowercased suffix and rename columns through the fixed
map of that branch. -/
def loadBranch (f : LocalFile) : Except PyError DataFrame :=
  let suffix := lowerStr f.suffix
  if suffix = ".csv" ∨ suffix = ".txt" then
    .ok (renameDf csvRenameMap f.csv)
  else if suffix = ".xml" then
    match f.xmlTab with
    | none => .error (.cannotParseXmlFile f.pathStr)
    | some t => .ok (renameDf xmlRenameMap t)
  else .error (.unsupportedFileFormat suffix)

/-- The cleaning pass of parse_congestion_income_file in the order of
the code: coerce Start and End, coerce RevenueEUR, drop rows missing
Start or RevenueEUR, project to the canonical three columns, sort
ascending by Start. -/
def cleanDf (parseDT : String → Option Int) (df0 : DataFrame) :
    Except PyError DataFrame :=
  let df1 := coerceIfPresent "Start" (coerceDT parseDT) df0
  let df2 := coerceIfPresent "End" (coerceDT parseDT) df1
  let df3 := coerceIfPresent "RevenueEUR" coerceNum df2
  match dropnaStartRev df3 with
  | .error e => .error e
  | .ok df4 =>
      match selectCols ["Start", "End", "RevenueEUR"] df4 with
      | .error e => .error e
      | .ok df5 => sortValuesBy "Start" df5

def parse_congestion_income_file (parseDT : String → Option Int)
    (f : LocalFile) : Except PyError DataFrame :=
  match loadBranch f with
  | .error e => .error e
  | .ok df0 => cleanDf parseDT df0

-- ==============================================================
-- Dispatcher (parser.py, parse_local_or_api)
-- ==============================================================

/-- The result of the dispatcher: either the API decoder output or the
legacy decoder output. -/
inductive TidyResult where
  | api (rows : List Row)
  | legacy (df : DataFrame)
deriving DecidableEq

/-- Embedding of parse_local_or_api: the content branch is checked
first; only when content is absent is path considered; with neither the
InvalidArgumentError is raised. -/
def parse_local_or_api (toDT : Option String → Int)
    (parseDT : String → Option Int) (content : Option (Option Xml))
    (path : Option LocalFile) : Except PyError TidyResult :=
  match content with
  | some c => (parse_entsoe_api_xml toDT c).map TidyResult.api
  | none =>
      match path with
      | some p => (parse_congestion_income_file parseDT p).map TidyResult.legacy
      | none => .error .contentOrPathRequired

-- ==============================================================
-- File library client (config.py and client.py)
-- ==============================================================

def BASE_URL : String := "https://transparency.entsoe.eu/api"

def FILE_LIBRARY_URL : String :=
  "https://transparency.entsoe.eu/file-library/api"

def CONGESTION_INCOME_CATEGORY : String := "12.1.E"

/-- The fixed bidding-zone to domain-code table of config.py. -/
def DOMAIN_MAP : List (String × String) :=
  [("DK_2", "10YDK-2--------M"),
   ("DK_1", "10YDK-1--------W"),
   ("SE_4", "10Y1001A1001A82H")]

/-- Python dict subscript: the value when the key is present. -/
def mapLookup (m : List (String × String)) (k : String) : Option String :=
  (m.find? (fun p => p.1 == k)).map (fun p => p.2)

/-- One file-metadata entry of the listing response. -/
structure FileMeta where
  fileId : String
  fileName : String
deriving DecidableEq

/-- The single GET request issued by list_files, with all its query
parameters. -/
structure Request where
  url : String
  page : Nat
  size : Nat
  psrType : String
  category : String
  searchFrom : String
  searchTo : String
  area : String
deriving DecidableEq

/-- The JSON body of a successful listing response; content is the
optional "content" array read with data.get. -/
structure ListResponse where
  content : Option (List FileMeta)
deriving DecidableEq

/-- The params dict and URL of the single GET request of list_files:
page 0, size limit, empty psrType, the category, the date range and the
resolved domain code. -/
def listRequest (category start stop domain : String) (limit : Nat) :
    Request :=
  { url := FILE_LIBRARY_URL ++ "/v1/files", page := 0, size := limit,
    psrType := "", category := category, searchFrom := start,
    searchTo := stop, area := domain }

/-- Embedding of EntsoeClient.list_files. The network is a function from
the request to either the parsed JSON body or the error raised by _get
on a non-success status. The bidding zone is resolved through
DOMAIN_MAP by dict subscript: an absent zone raises KeyError before any
request. Exactly one request is issued, with page 0 and size limit. -/
def list_files (net : Request → Except PyError ListResponse)
    (category start stop bidding_zone : String) (limit : Nat := 200) :
    Except PyError (List FileMeta) :=
  match mapLookup DOMAIN_MAP bidding_zone with
  | none => .error (.keyError bidding_zone)
  | some domain =>
      match net (listRequest category start stop domain limit) with
      | .error e => .error e
      | .ok r => .ok (r.content.getD [])

/-- The download loop of fetch_congestion_income: each entry prints a
progress line and is downloaded to rawDir joined with its file name; the
first failing download aborts the loop through the exception. Returns
the printed lines and the saved paths. -/
def downloadAll (dl : String → String → Except PyError String)
    (rawDir : String) :
    List FileMeta → Except PyError (List String × List String)
  | [] => .ok ([], [])
  | m :: rest =>
      match dl m.fileId (rawDir ++ "/" ++ m.fileName) with
      | .error e => .error e
      | .ok p =>
          match downloadAll dl rawDir rest with
          | .error e => .error e
          | .ok tail =>
              .ok (("⬇️ Downloading " ++ m.fileName ++ " ...") :: tail.1,
                   p :: tail.2)

/-- Embedding of EntsoeClient.fetch_congestion_income: list the files
for the congestion-income category, return an empty path list after a
printed warning when nothing is found, otherwise download each file in
order. The result carries the printed lines and the saved paths. -/
def fetch_congestion_income (net : Request → Except PyError ListResponse)
    (dl : String → String → Except PyError String)
    (bidding_zone start stop rawDir : String) :
    Except PyError (List String × List String) :=
  match list_files net CONGESTION_INCOME_CATEGORY start stop bidding_zone with
  | .error e => .error e
  | .ok meta =>
      if meta.length = 0 then
        .ok (["⚠️ No files found for given period."], [])
      else
        downloadAll dl rawDir meta

-- ==============================================================
-- Refinement definitions written from the specification text
-- ==============================================================

/-- Modelled from the spec: the ordered-fallback value extraction of
section 4.2 step 4, as the first candidate field present with non-empty,
numerically parseable text. -/
def specExtract (pt : Xml) : Option ℚ :=
  (CANDIDATE_VALUE_FIELDS.filterMap (fun tag =>
    (find1 pt tag).bind (fun node =>
      node.text.bind (fun s =>
        if s = "" then none else pyFloat? s)))).head?

/-- Modelled from the spec: the cleaning pass of section 4.3 in the
order the spec states it: coerce, drop, sort ascending by Start, then
project to the canonical three columns. -/
def specClean (parseDT : String → Option Int) (df0 : DataFrame) :
    Except PyError DataFrame :=
  let df1 := coerceIfPresent "Start" (coerceDT parseDT) df0
  let df2 := coerceIfPresent "End" (coerceDT parseDT) df1
  let df3 := coerceIfPresent "RevenueEUR" coerceNum df2
  match dropnaStartRev df3 with
  | .error e => .error e
  | .ok df4 =>
      match sortValuesBy "Start" df4 with
      | .error e => .error e
      | .ok df5 => selectCols ["Start", "End", "RevenueEUR"] df5

deriving instance DecidableEq for Except

-- ==============================================================
-- Concrete fixtures used to evaluate the embedding
-- ==============================================================

/-- A concrete stand-in for pd.to_datetime: reads the text as an integer
minute count, 0 when missing or unreadable. -/
def toDT0 : Option String → Int := fun t => (t.bind pyInt?).getD 0

/-- A concrete stand-in for elementwise pd.to_datetime with coercion. -/
def parseDT0 : String → Option Int := pyInt?

def startNode0 : Xml := xmlE "start" (some "100") []

def period0 : Xml :=
  xmlE "Period" none
    [xmlE "timeInterval" none [startNode0, xmlE "end" (some "160") []],
     xmlE "Point" none
       [xmlE "position" (some "2") [], xmlE "quantity" (some "20") []],
     xmlE "Point" none
       [xmlE "position" (some "1") [], xmlE "quantity" (some "10") []]]

def doc0 : Xml :=
  xmlE "Publication_MarketDocument" none
    [xmlE "TimeSeries" none [period0]]

/-- A document whose only Period has no interval start element but holds
a Point with an unparseable position text. -/
def docBadPosNoStart : Xml :=
  xmlE "Publication_MarketDocument" none
    [xmlE "TimeSeries" none
      [xmlE "Period" none
        [xmlE "Point" none
          [xmlE "position" (some "abc") [],
           xmlE "quantity" (some "7") []]]]]

/-- A Point whose position text is not an integer. -/
def ptBadPos : Xml :=
  xmlE "Point" none
    [xmlE "position" (some "abc") [], xmlE "quantity" (some "7") []]

def posNodeBad : Xml := xmlE "position" (some "abc") []

def startNodeBad : Xml := xmlE "start" (some "0") []

def periodBadReach : Xml :=
  xmlE "Period" none [xmlE "timeInterval" none [startNodeBad], ptBadPos]

def tsBadReach : Xml := xmlE "TimeSeries" none [periodBadReach]

/-- A document with a reachable Point whose position text is not an
integer. -/
def docBadPosReachable : Xml :=
  xmlE "Publication_MarketDocument" none [tsBadReach]

/-- A point carrying both quantity 5 and price.amount 9. -/
def ptBoth : Xml :=
  xmlE "Point" none
    [xmlE "quantity" (some "5") [], xmlE "price.amount" (some "9") []]

/-- A point with a position but no parseable value candidate. -/
def ptNoVal : Xml :=
  xmlE "Point" none [xmlE "position" (some "1") []]

def csv0 : DataFrame :=
  { cols := ["start", "end", "Revenue (EUR)"],
    rows := ([[Cell.str "30", Cell.str "40", Cell.str "12.5"],
              [Cell.str "10", Cell.str "20", Cell.str "7"],
              [Cell.str "xx", Cell.str "20", Cell.str "7"],
              [Cell.str "20", Cell.str "30", Cell.str "zz"]]) }

def file0 : LocalFile :=
  { pathStr := "data/x.csv", suffix := ".csv", csv := csv0, xmlTab := none }

/-- The canonical table the legacy decoder produces from csv0. -/
def outDf0 : DataFrame :=
  { cols := ["Start", "End", "RevenueEUR"],
    rows := ([[Cell.dt 10, Cell.dt 20, Cell.num (mkRat 7 1)],
              [Cell.dt 30, Cell.dt 40, Cell.num (mkRat 25 2)]]) }

def emptyDf : DataFrame := { cols := [], rows := [] }

def fileJson : LocalFile :=
  { pathStr := "a.json", suffix := ".json", csv := emptyDf, xmlTab := none }

def fileBadXml : LocalFile :=
  { pathStr := "data/y.xml", suffix := ".xml", csv := emptyDf,
    xmlTab := none }

/-- A network stub whose listing response is empty. -/
def netEmpty : Request → Except PyError ListResponse :=
  fun _ => .ok { content := some [] }

/-- A network stub returning two file entries. -/
def netTwo : Request → Except PyError ListResponse :=
  fun _ => .ok { content := (some
    [{ fileId := "f1", fileName := "a.csv" },
     { fileId := "f2", fileName := "b.csv" }]) }

/-- A download stub that fails on fileId f2 and succeeds elsewhere. -/
def dlFailSecond : String → String → Except PyError String :=
  fun fid dest =>
    if fid = "f2" then .error (.requestFailed 500 "boom") else .ok dest

example : pyInt? " 42 " = some 42 := by decide
example : pyInt? "-7" = some (-7) := by decide
example : pyInt? "abc" = none := by decide
example : pyInt? "1.5" = none := by decide
example : pyFloat? "12.5" = some (mkRat 25 2) := by decide
example : pyFloat? "-3.25" = some (mkRat (-13) 4) := by decide
example : pyFloat? "5" = some (mkRat 5 1) := by decide
example : pyFloat? "x" = none := by decide
example : lowerStr ".JSon" = ".json" := by decide

-- ==============================================================
-- Helper lemmas about the Point loop
-- ==============================================================

theorem pointsRows_mem (s : Int) (pts : List Xml) (rows : List Row)
    (h : pointsRows s pts = .ok rows) (r : Row) (hr : r ∈ rows) :
    ∃ pt ∈ pts, ∃ node pos,
      find1 pt "position" = some node ∧
      intOfText node.text = .ok pos ∧
      r.1 = s + 15 * (pos - 1) ∧
      extract_point_value pt = some r.2 := by
  induction pts generalizing rows with
  | nil =>
      simp only [pointsRows, Except.ok.injEq] at h
      subst h
      cases hr
  | cons pt rest ih =>
      simp only [pointsRows] at h
      cases hf : find1 pt "position" with
      | none =>
          simp only [hf] at h
          obtain ⟨pt', hpt', w⟩ := ih rows h hr
          exact ⟨pt', List.mem_cons_of_mem pt hpt', w⟩
      | some node =>
          simp only [hf] at h
          cases hi : intOfText node.text with
          | error e =>
              simp only [hi] at h
              exact Except.noConfusion h
          | ok pos =>
              simp only [hi] at h
              cases he : extract_point_value pt with
              | none =>
                  simp only [he] at h
                  obtain ⟨pt', hpt', w⟩ := ih rows h hr
                  exact ⟨pt', List.mem_cons_of_mem pt hpt', w⟩
              | some v =>
                  simp only [he] at h
                  cases ht : pointsRows s rest with
                  | error e =>
                      simp only [ht] at h
                      exact Except.noConfusion h
                  | ok tail =>
                      simp only [ht, Except.ok.injEq] at h
                      subst h
                      rcases List.mem_cons.mp hr with rfl | hrt
                      · exact ⟨pt, List.mem_cons_self pt rest,
                          node, pos, hf, hi, rfl, he⟩
                      · obtain ⟨pt', hpt', w⟩ := ih tail ht hrt
                        exact ⟨pt', List.mem_cons_of_mem pt hpt', w⟩

-- ==============================================================
-- Claim C1
-- ==============================================================

/-- C1: the REST-API decoder reconstructs each emitted point's
timestamp as periodStart + 15 minutes times (position - 1), where
position is the 1-indexed integer position of the point; a Period
without an interval start element is skipped entirely without error, and
a Point without a position element is skipped without error. -/
theorem C1_timestamp_reconstruction (toDT : Option String → Int) (p : Xml) :
    (findPath2 p "timeInterval" "start" = none → periodRows toDT p = .ok [])
  ∧ (∀ s pt rest, find1 pt "position" = none →
      pointsRows s (pt :: rest) = pointsRows s rest)
  ∧ (∀ start_node rows,
      findPath2 p "timeInterval" "start" = some start_node →
      periodRows toDT p = .ok rows →
      ∀ r ∈ rows, ∃ pt ∈ findallChild p "Point", ∃ node pos,
        find1 pt "position" = some node ∧
        intOfText node.text = .ok pos ∧
        r.1 = toDT start_node.text + 15 * (pos - 1) ∧
        extract_point_value pt = some r.2) := by
  refine ⟨?_, ?_, ?_⟩
  · intro h
    simp [periodRows, h]
  · intro s pt rest h
    simp [pointsRows, h]
  · intro start_node rows hfind hok r hr
    rw [periodRows, hfind] at hok
    exact pointsRows_mem (toDT start_node.text) (findallChild p "Point")
      rows hok r hr

/-- Closed instance of C1 at a concrete period: the point at position 2
of a period starting at 100 decodes to timestamp 115, and the decoded
row is traced back to its Point element. -/
theorem C1_timestamp_reconstruction_witness :
    periodRows toDT0 period0 =
      .ok [(115, mkRat 20 1), (100, mkRat 10 1)] ∧
    ∃ pt ∈ findallChild period0 "Point", ∃ node pos,
      find1 pt "position" = some node ∧
      intOfText node.text = .ok pos ∧
      ((115 : Int), mkRat 20 1).1 = toDT0 startNode0.text + 15 * (pos - 1) ∧
      extract_point_value pt = some ((115 : Int), mkRat 20 1).2 :=
  ⟨by rfl,
   (C1_timestamp_reconstruction toDT0 period0).2.2 startNode0
     [(115, mkRat 20 1), (100, mkRat 10 1)] (by rfl) (by rfl)
     (115, mkRat 20 1) (by decide)⟩

-- ==============================================================
-- Claim C2
-- ==============================================================

theorem extractFrom_eq_filterMap (pt : Xml) (l : List String) :
    extractFrom pt l = (l.filterMap (fun tag =>
      (find1 pt tag).bind (fun node =>
        node.text.bind (fun s =>
          if s = "" then none else pyFloat? s)))).head? := by
  induction l with
  | nil => rfl
  | cons tag rest ih =>
      cases hf : find1 pt tag with
      | none => simp [extractFrom, List.filterMap_cons, hf, ih]
      | some node =>
          cases htx : node.text with
          | none => simp [extractFrom, List.filterMap_cons, hf, htx, ih]
          | some s =>
              by_cases hs : s = ""
              · simp [extractFrom, List.filterMap_cons, hf, htx, hs, ih]
              · cases hp : pyFloat? s with
                | none =>
                    simp [extractFrom, List.filterMap_cons, hf, htx, hs, hp, ih]
                | some v =>
                    simp [extractFrom, List.filterMap_cons, hf, htx, hs, hp]

/-- C2: for every Point, the numeric value is the first candidate field
in the fixed order quantity, price.amount, flowAmount, amount,
quantity_Measure_Unit.name that is present with non-empty, numerically
parseable text; a point with both quantity 5 and price.amount 9 decodes
to 5; and a point for which no candidate yields a value is dropped
silently, producing no output row. -/
theorem C2_candidate_field_order (pt : Xml) :
    extract_point_value pt = specExtract pt
  ∧ extract_point_value ptBoth = some (mkRat 5 1)
  ∧ (∀ s node pos rest, extract_point_value pt = none →
      find1 pt "position" = some node →
      intOfText node.text = .ok pos →
      pointsRows s (pt :: rest) = pointsRows s rest) := by
  refine ⟨?_, by decide, ?_⟩
  · unfold extract_point_value specExtract
    exact extractFrom_eq_filterMap pt CANDIDATE_VALUE_FIELDS
  · intro s node pos rest he hf hi
    simp [pointsRows, hf, hi, he]

/-- Closed instance of C2: a point with a position but no parseable
candidate value contributes no row to the period output. -/
theorem C2_candidate_field_order_witness :
    extract_point_value ptNoVal = none ∧
    pointsRows 0 [ptNoVal] = pointsRows 0 [] :=
  ⟨by decide,
   (C2_candidate_field_order ptNoVal).2.2 0
     (xmlE "position" (some "1") []) 1 []
     (by decide) (by rfl) (by rfl)⟩

-- ==============================================================
-- Claim C3
-- ==============================================================

/-- C3 counterexample: with both content and path supplied, the
dispatcher does not raise the missing-argument error; it decodes the
supplied API content. -/
theorem C3_both_inputs_counterexample :
    parse_local_or_api toDT0 parseDT0 (some (some doc0)) (some file0) =
      .ok (.api [(100, mkRat 10 1), (115, mkRat 20 1)]) ∧
    parse_local_or_api toDT0 parseDT0 (some (some doc0)) (some file0) ≠
      .error .contentOrPathRequired := by
  exact ⟨by rfl, by decide⟩

/-- C3 (amended): the dispatcher raises the invalid-argument error
exactly when neither content nor path is supplied; whenever content is
supplied, also when path is supplied alongside it, it routes to the
REST-API decoder; with only path supplied it routes to the legacy
decoder. -/
theorem C3_dispatcher_amended (toDT : Option String → Int)
    (parseDT : String → Option Int) :
    parse_local_or_api toDT parseDT none none = .error .contentOrPathRequired
  ∧ (∀ c mp, parse_local_or_api toDT parseDT (some c) mp =
      (parse_entsoe_api_xml toDT c).map TidyResult.api)
  ∧ (∀ p, parse_local_or_api toDT parseDT none (some p) =
      (parse_congestion_income_file parseDT p).map TidyResult.legacy) :=
  ⟨rfl, fun _ _ => rfl, fun _ => rfl⟩

-- ==============================================================
-- Error-shape lemmas for the API decoder
-- ==============================================================

theorem intOfText_error_shape (t : Option String) (e : PyError)
    (h : intOfText t = .error e) : ∃ u, e = .intConversionError u := by
  cases t with
  | none =>
      simp only [intOfText, Except.error.injEq] at h
      exact ⟨none, h.symm⟩
  | some s =>
      cases hp : pyInt? s with
      | none =>
          simp only [intOfText, hp, Except.error.injEq] at h
          exact ⟨some s, h.symm⟩
      | some n =>
          simp only [intOfText, hp] at h
          exact Except.noConfusion h

theorem pointsRows_error_shape (s : Int) (pts : List Xml) (e : PyError)
    (h : pointsRows s pts = .error e) : ∃ u, e = .intConversionError u := by
  induction pts with
  | nil =>
      simp only [pointsRows] at h
      exact Except.noConfusion h
  | cons pt rest ih =>
      simp only [pointsRows] at h
      cases hf : find1 pt "position" with
      | none =>
          simp only [hf] at h
          exact ih h
      | some node =>
          simp only [hf] at h
          cases hi : intOfText node.text with
          | error e' =>
              simp only [hi, Except.error.injEq] at h
              subst h
              exact intOfText_error_shape node.text _ hi
          | ok pos =>
              simp only [hi] at h
              cases he : extract_point_value pt with
              | none =>
                  simp only [he] at h
                  exact ih h
              | some v =>
                  simp only [he] at h
                  cases ht : pointsRows s rest with
                  | error e' =>
                      simp only [ht, Except.error.injEq] at h
                      subst h
                      exact ih ht
                  | ok tail =>
                      simp only [ht] at h
                      exact Except.noConfusion h

theorem periodRows_error_shape (toDT : Option String → Int) (p : Xml)
    (e : PyError) (h : periodRows toDT p = .error e) :
    ∃ u, e = .intConversionError u := by
  rw [periodRows] at h
  cases hs : findPath2 p "timeInterval" "start" with
  | none =>
      rw [hs] at h
      exact Except.noConfusion h
  | some start_node =>
      rw [hs] at h
      exact pointsRows_error_shape (toDT start_node.text)
        (findallChild p "Point") e h

theorem periodsRows_error_shape (toDT : Option String → Int)
    (ps : List Xml) (e : PyError) (h : periodsRows toDT ps = .error e) :
    ∃ u, e = .intConversionError u := by
  induction ps with
  | nil =>
      simp only [periodsRows] at h
      exact Except.noConfusion h
  | cons p rest ih =>
      simp only [periodsRows] at h
      cases hp : periodRows toDT p with
      | error e' =>
          simp only [hp, Except.error.injEq] at h
          subst h
          exact periodRows_error_shape toDT p _ hp
      | ok a =>
          simp only [hp] at h
          cases hr : periodsRows toDT rest with
          | error e' =>
              simp only [hr, Except.error.injEq] at h
              subst h
              exact ih hr
          | ok b =>
              simp only [hr] at h
              exact Except.noConfusion h

theorem seriesRows_error_shape (toDT : Option String → Int)
    (ts : List Xml) (e : PyError) (h : seriesRows toDT ts = .error e) :
    ∃ u, e = .intConversionError u := by
  induction ts with
  | nil =>
      simp only [seriesRows] at h
      exact Except.noConfusion h
  | cons t rest ih =>
      simp only [seriesRows] at h
      cases hp : periodsRows toDT (findallDesc t "Period") with
      | error e' =>
          simp only [hp, Except.error.injEq] at h
          subst h
          exact periodsRows_error_shape toDT _ _ hp
      | ok a =>
          simp only [hp] at h
          cases hr : seriesRows toDT rest with
          | error e' =>
              simp only [hr, Except.error.injEq] at h
              subst h
              exact ih hr
          | ok b =>
              simp only [hr] at h
              exact Except.noConfusion h

/-- Full classification of the API decoder outcomes for a parsed
document. -/
theorem parse_api_classify (toDT : Option String → Int) (root : Xml) :
    (findallDesc root "TimeSeries" = [] ∧
      parse_entsoe_api_xml toDT (some root) = .error .noTimeSeriesError)
  ∨ (findallDesc root "TimeSeries" ≠ [] ∧
      ((∃ t, seriesRows toDT (findallDesc root "TimeSeries") =
               .error (.intConversionError t) ∧
             parse_entsoe_api_xml toDT (some root) =
               .error (.intConversionError t))
       ∨ (seriesRows toDT (findallDesc root "TimeSeries") = .ok [] ∧
          parse_entsoe_api_xml toDT (some root) =
            .error .noNumericValuesError)
       ∨ (∃ rows, rows ≠ [] ∧
            seriesRows toDT (findallDesc root "TimeSeries") = .ok rows ∧
            parse_entsoe_api_xml toDT (some root) =
              .ok (sortByKey (fun r => r.1) rows)))) := by
  by_cases hemp : findallDesc root "TimeSeries" = []
  · exact .inl ⟨hemp, by simp [parse_entsoe_api_xml, hemp]⟩
  · have hne : (findallDesc root "TimeSeries").isEmpty = false := by
      simpa [List.isEmpty_iff] using hemp
    refine .inr ⟨hemp, ?_⟩
    cases hs : seriesRows toDT (findallDesc root "TimeSeries") with
    | error e =>
        obtain ⟨t, rfl⟩ := seriesRows_error_shape toDT _ e hs
        exact .inl ⟨t, rfl, by simp [parse_entsoe_api_xml, hne, hs]⟩
    | ok rows =>
        by_cases hrows : rows = []
        · subst hrows
          exact .inr (.inl ⟨rfl, by simp [parse_entsoe_api_xml, hne, hs]⟩)
        · exact .inr (.inr ⟨rows, hrows, rfl,
            by simp [parse_entsoe_api_xml, hne, hs,
              List.isEmpty_iff, hrows]⟩)

-- ==============================================================
-- Claim C4
-- ==============================================================

/-- C4: the REST-API decoder fails with its FormatError exactly when
the bytes do not parse as XML or the document has zero TimeSeries
elements, and with its EmptyDataError exactly when the document has at
least one TimeSeries but the collected row list is empty; error results
carry no rows. -/
theorem C4_error_classification (toDT : Option String → Int) (root : Xml) :
    parse_entsoe_api_xml toDT none = .error .xmlParsingError
  ∧ parse_entsoe_api_xml toDT (some root) ≠ .error .xmlParsingError
  ∧ (parse_entsoe_api_xml toDT (some root) = .error .noTimeSeriesError ↔
      findallDesc root "TimeSeries" = [])
  ∧ (parse_entsoe_api_xml toDT (some root) = .error .noNumericValuesError ↔
      (findallDesc root "TimeSeries" ≠ [] ∧
       seriesRows toDT (findallDesc root "TimeSeries") = .ok [])) := by
  rcases parse_api_classify toDT root with ⟨hemp, hp⟩ |
    ⟨hne, ⟨t, hs, hp⟩ | ⟨hs, hp⟩ | ⟨rows, hrows, hs, hp⟩⟩
  · refine ⟨rfl, ?_, ?_, ?_⟩
    · rw [hp]
      intro h
      exact PyError.noConfusion (Except.error.inj h)
    · rw [hp]
      exact ⟨fun _ => hemp, fun _ => rfl⟩
    · rw [hp]
      constructor
      · intro h
        exact absurd (Except.error.inj h) (by intro hh; cases hh)
      · intro ⟨h1, _⟩
        exact absurd hemp h1
  · refine ⟨rfl, ?_, ?_, ?_⟩
    · rw [hp]
      intro h
      exact PyError.noConfusion (Except.error.inj h)
    · rw [hp]
      constructor
      · intro h
        exact absurd (Except.error.inj h) (by intro hh; cases hh)
      · intro h
        exact absurd h hne
    · rw [hp]
      constructor
      · intro h
        exact absurd (Except.error.inj h) (by intro hh; cases hh)
      · intro ⟨_, h2⟩
        rw [hs] at h2
        exact Except.noConfusion h2
  · refine ⟨rfl, ?_, ?_, ?_⟩
    · rw [hp]
      intro h
      exact PyError.noConfusion (Except.error.inj h)
    · rw [hp]
      constructor
      · intro h
        exact absurd (Except.error.inj h) (by intro hh; cases hh)
      · intro h
        exact absurd h hne
    · rw [hp]
      exact ⟨fun _ => ⟨hne, hs⟩, fun _ => rfl⟩
  · refine ⟨rfl, ?_, ?_, ?_⟩
    · rw [hp]
      intro h
      exact Except.noConfusion h
    · rw [hp]
      constructor
      · intro h
        exact Except.noConfusion h
      · intro h
        exact absurd h hne
    · rw [hp]
      constructor
      · intro h
        exact Except.noConfusion h
      · intro ⟨_, h2⟩
        rw [hs] at h2
        exact absurd (Except.ok.inj h2) hrows

/-- Closed instance of C4: a document without TimeSeries elements fails
with the FormatError signal, by the classification theorem. -/
theorem C4_error_classification_witness :
    parse_entsoe_api_xml toDT0 (some (xmlE "empty" none [])) =
      .error .noTimeSeriesError :=
  ((C4_error_classification toDT0 (xmlE "empty" none [])).2.2.1).mpr (by rfl)

-- ==============================================================
-- Claim C10
-- ==============================================================

/-- C10 counterexample: a document whose only Point has unparseable
position text, sitting in a Period without an interval start element,
decodes to the EmptyDataError signal: the whole parse is not aborted by
an integer-conversion error, because the period is skipped first. -/
theorem C10_unreachable_point_counterexample :
    parse_entsoe_api_xml toDT0 (some docBadPosNoStart) =
      .error .noNumericValuesError ∧
    parse_entsoe_api_xml toDT0 (some docBadPosNoStart) ≠
      .error (.intConversionError (some "abc")) :=
  ⟨by rfl, by decide⟩

theorem pointsRows_bad_point (s : Int) (pts : List Xml) (pt node : Xml)
    (hpt : pt ∈ pts) (hnode : find1 pt "position" = some node)
    (hbad : ∃ e, intOfText node.text = .error e) :
    ∃ u, pointsRows s pts = .error (.intConversionError u) := by
  induction pts with
  | nil => cases hpt
  | cons q rest ih =>
      rcases List.mem_cons.mp hpt with rfl | hmem
      · obtain ⟨e, he⟩ := hbad
        obtain ⟨u, hu⟩ := intOfText_error_shape node.text e he
        subst hu
        exact ⟨u, by simp only [pointsRows, hnode, he]⟩
      · cases hf : find1 q "position" with
        | none =>
            obtain ⟨u, hu⟩ := ih hmem
            exact ⟨u, by simp only [pointsRows, hf, hu]⟩
        | some node' =>
            cases hi : intOfText node'.text with
            | error e' =>
                obtain ⟨u, hu⟩ := intOfText_error_shape node'.text e' hi
                subst hu
                exact ⟨u, by simp only [pointsRows, hf, hi]⟩
            | ok pos =>
                cases he : extract_point_value q with
                | none =>
                    obtain ⟨u, hu⟩ := ih hmem
                    exact ⟨u, by simp only [pointsRows, hf, hi, he, hu]⟩
                | some v =>
                    obtain ⟨u, hu⟩ := ih hmem
                    exact ⟨u, by simp only [pointsRows, hf, hi, he, hu]⟩

theorem periodRows_bad_point (toDT : Option String → Int) (p pt node : Xml)
    (hstart : ∃ sn, findPath2 p "timeInterval" "start" = some sn)
    (hpt : pt ∈ findallChild p "Point")
    (hnode : find1 pt "position" = some node)
    (hbad : ∃ e, intOfText node.text = .error e) :
    ∃ u, periodRows toDT p = .error (.intConversionError u) := by
  obtain ⟨sn, hsn⟩ := hstart
  obtain ⟨u, hu⟩ := pointsRows_bad_point (toDT sn.text)
    (findallChild p "Point") pt node hpt hnode hbad
  refine ⟨u, ?_⟩
  rw [periodRows, hsn]
  exact hu

theorem periodsRows_bad (toDT : Option String → Int) (ps : List Xml)
    (p : Xml) (hp : p ∈ ps)
    (hbad : ∃ u, periodRows toDT p = .error (.intConversionError u)) :
    ∃ u, periodsRows toDT ps = .error (.intConversionError u) := by
  induction ps with
  | nil => cases hp
  | cons q rest ih =>
      rcases List.mem_cons.mp hp with rfl | hmem
      · obtain ⟨u, hu⟩ := hbad
        exact ⟨u, by simp only [periodsRows, hu]⟩
      · cases hq : periodRows toDT q with
        | error e =>
            obtain ⟨u, hu⟩ := periodRows_error_shape toDT q e hq
            subst hu
            exact ⟨u, by simp only [periodsRows, hq]⟩
        | ok a =>
            obtain ⟨u, hu⟩ := ih hmem
            exact ⟨u, by simp only [periodsRows, hq, hu]⟩

theorem seriesRows_bad (toDT : Option String → Int) (tss : List Xml)
    (ts : Xml) (hts : ts ∈ tss)
    (hbad : ∃ u, periodsRows toDT (findallDesc ts "Period") =
      .error (.intConversionError u)) :
    ∃ u, seriesRows toDT tss = .error (.intConversionError u) := by
  induction tss with
  | nil => cases hts
  | cons q rest ih =>
      rcases List.mem_cons.mp hts with rfl | hmem
      · obtain ⟨u, hu⟩ := hbad
        exact ⟨u, by simp only [seriesRows, hu]⟩
      · cases hq : periodsRows toDT (findallDesc q "Period") with
        | error e =>
            obtain ⟨u, hu⟩ := periodsRows_error_shape toDT _ e hq
            subst hu
            exact ⟨u, by simp only [seriesRows, hq]⟩
        | ok a =>
            obtain ⟨u, hu⟩ := ih hmem
            exact ⟨u, by simp only [seriesRows, hq, hu]⟩

/-- C10 (amended): for every REST-API XML input containing a Point
whose position element is present with text that does not parse as an
integer, inside a Period that has an interval start timestamp (so that
the point is reached), the decoder aborts the whole parse with the
unguarded integer-conversion error; such a point is neither skipped nor
reported through the FormatError or EmptyDataError signals, and no rows
are returned. -/
theorem C10_position_error_amended (toDT : Option String → Int)
    (root ts p pt node : Xml)
    (hts : ts ∈ findallDesc root "TimeSeries")
    (hp : p ∈ findallDesc ts "Period")
    (hstart : ∃ sn, findPath2 p "timeInterval" "start" = some sn)
    (hpt : pt ∈ findallChild p "Point")
    (hnode : find1 pt "position" = some node)
    (hbad : ∃ e, intOfText node.text = .error e) :
    ∃ u, parse_entsoe_api_xml toDT (some root) =
        .error (.intConversionError u)
      ∧ parse_entsoe_api_xml toDT (some root) ≠ .error .noTimeSeriesError
      ∧ parse_entsoe_api_xml toDT (some root) ≠ .error .noNumericValuesError
      ∧ ∀ rows, parse_entsoe_api_xml toDT (some root) ≠ .ok rows := by
  have hser : ∃ u, seriesRows toDT (findallDesc root "TimeSeries") =
      .error (.intConversionError u) :=
    seriesRows_bad toDT _ ts hts
      (periodsRows_bad toDT _ p hp
        (periodRows_bad_point toDT p pt node hstart hpt hnode hbad))
  obtain ⟨u, hu⟩ := hser
  have hne : (findallDesc root "TimeSeries").isEmpty = false := by
    cases hl : findallDesc root "TimeSeries" with
    | nil => rw [hl] at hts; cases hts
    | cons a l => simp
  have hparse : parse_entsoe_api_xml toDT (some root) =
      .error (.intConversionError u) := by
    simp [parse_entsoe_api_xml, hne, hu]
  refine ⟨u, hparse, ?_, ?_, ?_⟩
  · rw [hparse]
    intro h
    exact PyError.noConfusion (Except.error.inj h)
  · rw [hparse]
    intro h
    exact PyError.noConfusion (Except.error.inj h)
  · intro rows h
    rw [hparse] at h
    exact Except.noConfusion h

/-- Closed instance of C10 (amended): the concrete document with a
reachable bad-position Point aborts with the integer-conversion error. -/
theorem C10_position_error_amended_witness :
    ∃ u, parse_entsoe_api_xml toDT0 (some docBadPosReachable) =
        .error (.intConversionError u)
      ∧ parse_entsoe_api_xml toDT0 (some docBadPosReachable) ≠
          .error .noTimeSeriesError
      ∧ parse_entsoe_api_xml toDT0 (some docBadPosReachable) ≠
          .error .noNumericValuesError
      ∧ ∀ rows, parse_entsoe_api_xml toDT0 (some docBadPosReachable) ≠
          .ok rows := by
  apply C10_position_error_amended toDT0 docBadPosReachable
    tsBadReach periodBadReach ptBadPos posNodeBad
  · show tsBadReach ∈ [tsBadReach]
    exact List.mem_singleton.mpr rfl
  · show periodBadReach ∈ [periodBadReach]
    exact List.mem_singleton.mpr rfl
  · exact ⟨startNodeBad, rfl⟩
  · show ptBadPos ∈ [ptBadPos]
    exact List.mem_singleton.mpr rfl
  · rfl
  · exact ⟨.intConversionError (some "abc"), rfl⟩

-- ==============================================================
-- Claim C7
-- ==============================================================

/-- C7: the legacy decoder selects its branch purely by the lowercased
file extension: any extension other than .csv, .txt, .xml fails with
the unsupported-format error carrying the extension, and an .xml file
whose tabular read fails yields the FormatError naming the path. -/
theorem C7_extension_dispatch (parseDT : String → Option Int)
    (f : LocalFile) :
    (lowerStr f.suffix ≠ ".csv" → lowerStr f.suffix ≠ ".txt" →
      lowerStr f.suffix ≠ ".xml" →
      parse_congestion_income_file parseDT f =
        .error (.unsupportedFileFormat (lowerStr f.suffix)))
  ∧ (lowerStr f.suffix = ".xml" → f.xmlTab = none →
      parse_congestion_income_file parseDT f =
        .error (.cannotParseXmlFile f.pathStr)) := by
  constructor
  · intro h1 h2 h3
    simp [parse_congestion_income_file, loadBranch, h1, h2, h3]
  · intro hx hnone
    simp [parse_congestion_income_file, loadBranch, hx, hnone]

/-- Closed instance of C7: a .json path fails with the unsupported
format error, and an unreadable .xml path fails naming the path. -/
theorem C7_extension_dispatch_witness :
    parse_congestion_income_file parseDT0 fileJson =
      .error (.unsupportedFileFormat ".json") ∧
    parse_congestion_income_file parseDT0 fileBadXml =
      .error (.cannotParseXmlFile "data/y.xml") :=
  ⟨(C7_extension_dispatch parseDT0 fileJson).1
     (by decide) (by decide) (by decide),
   (C7_extension_dispatch parseDT0 fileBadXml).2 (by decide) rfl⟩

-- ==============================================================
-- Claim C8
-- ==============================================================

/-- C8: list_files resolves the bidding zone through the fixed domain
table (DK_2, DK_1, SE_4 with their domain codes) and fails with the
unguarded lookup error for any absent zone; otherwise its result is
fully determined by the single page-0 request of size limit (default
200), whose content array is returned as is, so entries beyond the
first limit are never requested. -/
theorem C8_list_files_contract (net : Request → Except PyError ListResponse)
    (category start stop : String) (limit : Nat) :
    DOMAIN_MAP = [("DK_2", "10YDK-2--------M"), ("DK_1", "10YDK-1--------W"),
      ("SE_4", "10Y1001A1001A82H")]
  ∧ (∀ zone, mapLookup DOMAIN_MAP zone = none →
      list_files net category start stop zone limit =
        .error (.keyError zone))
  ∧ (∀ zone domain, mapLookup DOMAIN_MAP zone = some domain →
      (listRequest category start stop domain limit).page = 0 ∧
      (listRequest category start stop domain limit).size = limit ∧
      list_files net category start stop zone limit =
        (match (net (listRequest category start stop domain limit)) with
         | .error e => .error e
         | .ok r => .ok (r.content.getD [])))
  ∧ (∀ zone, list_files net category start stop zone =
      list_files net category start stop zone 200) := by
  refine ⟨rfl, ?_, ?_, fun zone => rfl⟩
  · intro zone h
    rw [list_files, h]
  · intro zone domain h
    refine ⟨rfl, rfl, ?_⟩
    rw [list_files, h]

/-- Closed instance of C8: an unknown zone fails with the lookup error;
a known zone returns the content array of the single response. -/
theorem C8_list_files_contract_witness :
    list_files netEmpty "12.1.E" "s" "e" "XX" 200 =
      .error (.keyError "XX") ∧
    list_files netEmpty "12.1.E" "s" "e" "DK_2" 200 = .ok [] :=
  ⟨(C8_list_files_contract netEmpty "12.1.E" "s" "e" 200).2.1 "XX"
     (by decide),
   by
     rw [((C8_list_files_contract netEmpty "12.1.E" "s" "e" 200).2.2.1 "DK_2"
       "10YDK-2--------M" (by decide)).2.2]
     rfl⟩

-- ==============================================================
-- Claim C9
-- ==============================================================

theorem downloadAll_abort (dl : String → String → Except PyError String)
    (rawDir : String) (pre : List FileMeta) (m : FileMeta)
    (post : List FileMeta) (e : PyError)
    (hpre : ∀ x ∈ pre, ∃ p, dl x.fileId (rawDir ++ "/" ++ x.fileName) = .ok p)
    (hm : dl m.fileId (rawDir ++ "/" ++ m.fileName) = .error e) :
    downloadAll dl rawDir (pre ++ m :: post) = .error e := by
  induction pre with
  | nil => simp only [List.nil_append, downloadAll, hm]
  | cons x rest ih =>
      obtain ⟨p, hp⟩ := hpre x (List.mem_cons_self x rest)
      have hrest := ih (fun y hy => hpre y (List.mem_cons_of_mem x hy))
      simp only [List.cons_append, downloadAll, hp, List.append_eq, hrest]

/-- C9: fetch_congestion_income returns an empty path list after a
printed warning line, not an error, when the listing yields zero
entries; and when an individual download fails after the earlier
entries succeeded, the failure propagates immediately as the result of
the whole batch for any remaining entries, so no partial path
collection is returned. -/
theorem C9_fetch_behavior (net : Request → Except PyError ListResponse)
    (dl : String → String → Except PyError String)
    (zone start stop rawDir : String) :
    (list_files net CONGESTION_INCOME_CATEGORY start stop zone = .ok [] →
      fetch_congestion_income net dl zone start stop rawDir =
        .ok (["⚠️ No files found for given period."], []))
  ∧ (∀ pre m post e,
      list_files net CONGESTION_INCOME_CATEGORY start stop zone =
        .ok (pre ++ m :: post) →
      (∀ x ∈ pre, ∃ p, dl x.fileId (rawDir ++ "/" ++ x.fileName) = .ok p) →
      dl m.fileId (rawDir ++ "/" ++ m.fileName) = .error e →
      fetch_congestion_income net dl zone start stop rawDir = .error e) := by
  constructor
  · intro h
    simp [fetch_congestion_income, h]
  · intro pre m post e hlist hpre hm
    have hlen : ¬((pre ++ m :: post).length = 0) := by simp
    simp only [fetch_congestion_income, hlist]
    rw [if_neg hlen]
    exact downloadAll_abort dl rawDir pre m post e hpre hm

/-- Closed instance of C9: an empty listing produces the warning and no
paths; a failing second download aborts the batch with that failure. -/
theorem C9_fetch_behavior_witness :
    fetch_congestion_income netEmpty dlFailSecond "DK_2" "s" "e" "raw" =
      .ok (["⚠️ No files found for given period."], []) ∧
    fetch_congestion_income netTwo dlFailSecond "DK_2" "s" "e" "raw" =
      .error (.requestFailed 500 "boom") :=
  ⟨(C9_fetch_behavior netEmpty dlFailSecond "DK_2" "s" "e" "raw").1 (by rfl),
   (C9_fetch_behavior netTwo dlFailSecond "DK_2" "s" "e" "raw").2
     [{ fileId := "f1", fileName := "a.csv" }]
     { fileId := "f2", fileName := "b.csv" } [] (.requestFailed 500 "boom")
     (by rfl)
     (by
       intro x hx
       rcases List.mem_singleton.mp hx with rfl
       exact ⟨_, rfl⟩)
     (by rfl)⟩

-- ==============================================================
-- DataFrame lemmas for the cleaning pass
-- ==============================================================

theorem sortValuesBy_ok (c : String) (df : DataFrame) (k : Nat)
    (h : colIdx? df c = some k) :
    sortValuesBy c df = .ok { df with rows :=
      (sortByKey (fun r => cellKey (r.getD k .null)) df.rows) } := by
  rw [sortValuesBy, h]

theorem selectCols_ok (cs : List String) (df d : DataFrame)
    (h : selectCols cs df = .ok d) :
    d.cols = cs ∧ d.rows = df.rows.map (fun r => cs.map (cellAt df r)) := by
  rw [selectCols] at h
  by_cases hc : (cs.all fun c => (colIdx? df c).isSome) = true
  · rw [if_pos hc] at h
    have hd := Except.ok.inj h
    subst hd
    exact ⟨rfl, rfl⟩
  · rw [if_neg hc] at h
    exact Except.noConfusion h

theorem dropnaStartRev_ok (df d : DataFrame)
    (h : dropnaStartRev df = .ok d) :
    ∃ i j, colIdx? df "Start" = some i ∧ colIdx? df "RevenueEUR" = some j ∧
      d.cols = df.cols ∧
      d.rows = df.rows.filter (fun r =>
        !(r.getD i .null).isNull && !(r.getD j .null).isNull) := by
  rw [dropnaStartRev] at h
  cases hi : colIdx? df "Start" with
  | none =>
      simp only [hi] at h
      exact Except.noConfusion h
  | some i =>
      cases hj : colIdx? df "RevenueEUR" with
      | none =>
          simp only [hi, hj] at h
          exact Except.noConfusion h
      | some j =>
          simp only [hi, hj] at h
          have hd := Except.ok.inj h
          subst hd
          exact ⟨i, j, rfl, rfl, rfl, rfl⟩

theorem colIdx_congr (df d : DataFrame) (c : String)
    (h : d.cols = df.cols) : colIdx? d c = colIdx? df c := by
  rw [colIdx?, colIdx?, h]

/-- The code projects to the canonical columns and then sorts; the spec
states the cleaning as sort then project. The two pipelines agree. -/
theorem cleanDf_eq_specClean (parseDT : String → Option Int)
    (df0 : DataFrame) : cleanDf parseDT df0 = specClean parseDT df0 := by
  simp only [cleanDf, specClean]
  cases hdrop : dropnaStartRev
      (coerceIfPresent "RevenueEUR" coerceNum
        (coerceIfPresent "End" (coerceDT parseDT)
          (coerceIfPresent "Start" (coerceDT parseDT) df0))) with
  | error e => rfl
  | ok df4 =>
      dsimp only
      obtain ⟨i, j, hi, hj, hcols4, hrows4⟩ := dropnaStartRev_ok _ df4 hdrop
      have hi4 : colIdx? df4 "Start" = some i := by
        rw [colIdx_congr _ _ _ hcols4]
        exact hi
      rw [sortValuesBy_ok "Start" df4 i hi4]
      dsimp only
      rw [selectCols, selectCols]
      have hcolseq : ∀ c, colIdx? { df4 with rows :=
          (sortByKey (fun r => cellKey (r.getD i .null)) df4.rows) } c =
          colIdx? df4 c := fun c => rfl
      by_cases hsel :
          (["Start", "End", "RevenueEUR"].all
            fun c => (colIdx? df4 c).isSome) = true
      · rw [if_pos hsel, if_pos (by simpa [hcolseq] using hsel)]
        dsimp only
        have h0 : colIdx? (DataFrame.mk ["Start", "End", "RevenueEUR"]
            (df4.rows.map (fun r =>
              ["Start", "End", "RevenueEUR"].map (cellAt df4 r)))) "Start" =
            some 0 := by rfl
        rw [sortValuesBy_ok "Start" _ 0 h0]
        have hkey : ∀ r, cellKey
            ((["Start", "End", "RevenueEUR"].map (cellAt df4 r)).getD 0 .null) =
            cellKey (r.getD i .null) := by
          intro r
          have : (["Start", "End", "RevenueEUR"].map (cellAt df4 r)).getD 0
              .null = cellAt df4 r "Start" := rfl
          rw [this, cellAt, hi4]
        have hmap := sortByKey_map
          (fun r => cellKey (r.getD i .null))
          (fun r => cellKey (r.getD 0 .null))
          (fun r => ["Start", "End", "RevenueEUR"].map (cellAt df4 r))
          hkey df4.rows
        simp only [Except.ok.injEq, DataFrame.mk.injEq]
        exact ⟨trivial, hmap⟩
      · rw [if_neg hsel, if_neg (by simpa [hcolseq] using hsel)]

-- ==============================================================
-- Claim C6
-- ==============================================================

/-- C6: for every legacy input, the decoder applies the fixed rename
map of its branch (CSV or legacy XML), coerces Start and End to
timestamps and RevenueEUR to numeric with unparseable values becoming
null rather than errors, drops every row missing Start or RevenueEUR,
sorts ascending by Start and projects to exactly the three canonical
columns: the code pipeline equals the spec-ordered cleaning pass on the
renamed table. -/
theorem C6_legacy_normalization (parseDT : String → Option Int)
    (f : LocalFile) :
    (lowerStr f.suffix = ".csv" ∨ lowerStr f.suffix = ".txt" →
      parse_congestion_income_file parseDT f =
        specClean parseDT (renameDf csvRenameMap f.csv))
  ∧ (∀ t, lowerStr f.suffix = ".xml" → f.xmlTab = some t →
      parse_congestion_income_file parseDT f =
        specClean parseDT (renameDf xmlRenameMap t))
  ∧ (∀ s, parseDT s = none → coerceDT parseDT (.str s) = .null)
  ∧ (∀ s, pyFloat? s = none → coerceNum (.str s) = .null)
  ∧ renameCols csvRenameMap ["start", "end", "revenue", "Revenue (EUR)"] =
      ["Start", "End", "RevenueEUR", "RevenueEUR"]
  ∧ renameCols xmlRenameMap
      ["Period.start", "Period.end", "CongestionIncome.amount"] =
      ["Start", "End", "RevenueEUR"] := by
  refine ⟨?_, ?_, ?_, ?_, by decide, by decide⟩
  · intro h
    have hb : loadBranch f = .ok (renameDf csvRenameMap f.csv) := by
      rcases h with h | h <;> simp [loadBranch, h]
    simp only [parse_congestion_income_file, hb]
    exact cleanDf_eq_specClean parseDT _
  · intro t hx ht
    have hb : loadBranch f = .ok (renameDf xmlRenameMap t) := by
      simp [loadBranch, hx, ht]
    simp only [parse_congestion_income_file, hb]
    exact cleanDf_eq_specClean parseDT _
  · intro s h
    simp [coerceDT, h]
  · intro s h
    simp [coerceNum, h]

/-- Closed instance of C6: the concrete CSV fixture normalizes through
the spec-ordered cleaning pass. -/
theorem C6_legacy_normalization_witness :
    parse_congestion_income_file parseDT0 file0 =
      specClean parseDT0 (renameDf csvRenameMap file0.csv) :=
  (C6_legacy_normalization parseDT0 file0).1 (Or.inl (by decide))

-- ==============================================================
-- Claim C5
-- ==============================================================

theorem isNull_false_ne (c : Cell) (h : c.isNull = false) : c ≠ .null := by
  intro hc
  subst hc
  exact Bool.noConfusion h


-- ==============================================================
-- Pandas-scalar variant of the API decoder: nullable timestamps
-- (NaT) and NaN values made representable
-- ==============================================================

/-- A pandas timestamp scalar: a real instant or the missing marker
NaT. pd.to_datetime(None) is NaT, and the code reads start_node.text,
which is None when the start element is present with no text. -/
inductive PdTime where
  | t (v : Int)
  | nat
deriving DecidableEq

/-- NaT plus a Timedelta is NaT; a real instant shifts by the delta. -/
def PdTime.addMinutes : PdTime → Int → PdTime
  | .t v, d => .t (v + d)
  | .nat, _ => .nat

/-- pd.to_datetime on the optional text of an element: missing text
yields NaT; present text is parsed by the abstract text parser. -/
def pdToDatetime (toDT : String → Int) : Option String → PdTime
  | none => .nat
  | some s => .t (toDT s)

/-- The sort_index comparison on timestamps: real instants by value,
NaT ordered after every real instant. -/
def pdTimeLe : PdTime → PdTime → Bool
  | .t v, .t w => decide (v ≤ w)
  | .t _, .nat => true
  | .nat, .t _ => false
  | .nat, .nat => true

/-- A Python float value: a rational, a signed infinity, or NaN.
float('nan') succeeds and the result is not None, so NaN flows into
the decoder output as a revenue value. -/
inductive PdVal where
  | q (v : ℚ)
  | inf (neg : Bool)
  | nan
deriving DecidableEq

/-- float() on stripped text after the sign: the spellings nan, inf
and infinity (case-insensitive) or a decimal literal. -/
def pyFloatPdCore (neg : Bool) (l : List Char) : Option PdVal :=
  let w := l.map lowerChar
  if w = ['n', 'a', 'n'] then some .nan
  else if w = ['i', 'n', 'f'] ∨
      w = ['i', 'n', 'f', 'i', 'n', 'i', 't', 'y'] then
    some (.inf neg)
  else (decimalCore (if neg then -1 else 1) l).map PdVal.q

/-- Model of the Python builtin float() with its non-numeric spellings
representable. -/
def pyFloatPd? (s : String) : Option PdVal :=
  let t := stripChars s.data
  match t with
  | '-' :: r => pyFloatPdCore true r
  | '+' :: r => pyFloatPdCore false r
  | r => pyFloatPdCore false r

/-- The candidate loop of extract_point_value with pandas-compatible
float values. -/
def extractFromPd (pt : Xml) : List String → Option PdVal
  | [] => none
  | tag :: rest =>
      match find1 pt tag with
      | none => extractFromPd pt rest
      | some node =>
          match node.text with
          | none => extractFromPd pt rest
          | some s =>
              if s = "" then extractFromPd pt rest
              else
                match pyFloatPd? s with
                | some v => some v
                | none => extractFromPd pt rest

def extract_point_value_pd (pt : Xml) : Option PdVal :=
  extractFromPd pt CANDIDATE_VALUE_FIELDS

/-- One output row of the pandas-scalar decoder. -/
abbrev RowPd : Type := PdTime × PdVal

def pointsRowsPd (period_start : PdTime) :
    List Xml → Except PyError (List RowPd)
  | [] => .ok []
  | pt :: rest =>
      match find1 pt "position" with
      | none => pointsRowsPd period_start rest
      | some pos_node =>
          match intOfText pos_node.text with
          | .error e => .error e
          | .ok pos =>
              match extract_point_value_pd pt with
              | none => pointsRowsPd period_start rest
              | some v =>
                  match pointsRowsPd period_start rest with
                  | .error e => .error e
                  | .ok tail =>
                      .ok ((period_start.addMinutes (15 * (pos - 1)), v)
                        :: tail)

def periodRowsPd (toDT : String → Int) (p : Xml) :
    Except PyError (List RowPd) :=
  match findPath2 p "timeInterval" "start" with
  | none => .ok []
  | some start_node =>
      pointsRowsPd (pdToDatetime toDT start_node.text)
        (findallChild p "Point")

def periodsRowsPd (toDT : String → Int) :
    List Xml → Except PyError (List RowPd)
  | [] => .ok []
  | p :: ps =>
      match periodRowsPd toDT p with
      | .error e => .error e
      | .ok a =>
          match periodsRowsPd toDT ps with
          | .error e => .error e
          | .ok b => .ok (a ++ b)

def seriesRowsPd (toDT : String → Int) :
    List Xml → Except PyError (List RowPd)
  | [] => .ok []
  | ts :: rest =>
      match periodsRowsPd toDT (findallDesc ts "Period") with
      | .error e => .error e
      | .ok a =>
          match seriesRowsPd toDT rest with
          | .error e => .error e
          | .ok b => .ok (a ++ b)

/-- Ascending insertion by a Bool comparison (sort_index with NaT
ordered last uses pdTimeLe on the first component). -/
def insertByLe {α : Type} (le : α → α → Bool) (x : α) : List α → List α
  | [] => [x]
  | y :: ys => if le x y then x :: y :: ys else y :: insertByLe le x ys

def sortByLe {α : Type} (le : α → α → Bool) : List α → List α
  | [] => []
  | x :: xs => insertByLe le x (sortByLe le xs)

def rowPdLe (a b : RowPd) : Bool := pdTimeLe a.1 b.1

/-- The pandas-scalar embedding of parse_entsoe_api_xml: identical
control flow, with NaT timestamps and NaN values representable in the
output rows, sorted with NaT last as sort_index does. -/
def parse_entsoe_api_xml_pd (toDT : String → Int) (doc : Option Xml) :
    Except PyError (List RowPd) :=
  match doc with
  | none => .error .xmlParsingError
  | some root =>
      let series := findallDesc root "TimeSeries"
      if series.isEmpty then .error .noTimeSeriesError
      else
        match seriesRowsPd toDT series with
        | .error e => .error e
        | .ok all_rows =>
            if all_rows.isEmpty then .error .noNumericValuesError
            else .ok (sortByLe rowPdLe all_rows)

/-- A concrete text parser for the witness documents. -/
def toDTs : String → Int := fun s => (pyInt? s).getD 0

/-- A document the decoder accepts whose output has a NaT timestamp
(first Period: start element present with missing text) and a NaN
revenue (second Period: quantity text nan). -/
def docNullOut : Xml :=
  xmlE "Publication_MarketDocument" none
    [xmlE "TimeSeries" none
      [xmlE "Period" none
        [xmlE "timeInterval" none [xmlE "start" none []],
         xmlE "Point" none
           [xmlE "position" (some "1") [],
            xmlE "quantity" (some "5") []]],
       xmlE "Period" none
        [xmlE "timeInterval" none [xmlE "start" (some "0") []],
         xmlE "Point" none
           [xmlE "position" (some "1") [],
            xmlE "quantity" (some "nan") []]]]]

theorem insertByLe_perm {α : Type} (le : α → α → Bool) (x : α)
    (l : List α) : (insertByLe le x l).Perm (x :: l) := by
  induction l with
  | nil => simp [insertByLe]
  | cons y ys ih =>
      by_cases h : le x y = true
      · simp [insertByLe, h]
      · simp only [insertByLe, if_neg h]
        exact ((ih.cons y).trans (List.Perm.swap x y ys))

theorem sortByLe_perm {α : Type} (le : α → α → Bool) (l : List α) :
    (sortByLe le l).Perm l := by
  induction l with
  | nil => simp [sortByLe]
  | cons x xs ih =>
      exact (insertByLe_perm le x (sortByLe le xs)).trans (ih.cons x)

theorem mem_insertByLe {α : Type} (le : α → α → Bool) (x a : α)
    (l : List α) : a ∈ insertByLe le x l ↔ a = x ∨ a ∈ l := by
  have h := (insertByLe_perm le x l).mem_iff (a := a)
  simpa using h

theorem insertByLe_pairwise {α : Type} (le : α → α → Bool)
    (htot : ∀ a b, le a b = true ∨ le b a = true)
    (htrans : ∀ a b c, le a b = true → le b c = true → le a c = true)
    (x : α) (l : List α) (h : l.Pairwise (fun a b => le a b = true)) :
    (insertByLe le x l).Pairwise (fun a b => le a b = true) := by
  induction l with
  | nil => simp [insertByLe]
  | cons y ys ih =>
      rcases List.pairwise_cons.mp h with ⟨hy, hys⟩
      by_cases hxy : le x y = true
      · simp only [insertByLe, if_pos hxy]
        refine List.pairwise_cons.mpr ⟨?_, h⟩
        intro b hb
        rcases List.mem_cons.mp hb with rfl | hb
        · exact hxy
        · exact htrans x y b hxy (hy b hb)
      · simp only [insertByLe, if_neg hxy]
        refine List.pairwise_cons.mpr ⟨?_, ih hys⟩
        intro b hb
        rcases (mem_insertByLe le x b ys).mp hb with hbx | hb
        · rw [hbx]
          rcases htot x y with hx | hx
          · exact absurd hx hxy
          · exact hx
        · exact hy b hb

theorem sortByLe_pairwise {α : Type} (le : α → α → Bool)
    (htot : ∀ a b, le a b = true ∨ le b a = true)
    (htrans : ∀ a b c, le a b = true → le b c = true → le a c = true)
    (l : List α) :
    (sortByLe le l).Pairwise (fun a b => le a b = true) := by
  induction l with
  | nil => simp [sortByLe]
  | cons x xs ih =>
      exact insertByLe_pairwise le htot htrans x (sortByLe le xs) ih

theorem pdTimeLe_total (a b : PdTime) :
    pdTimeLe a b = true ∨ pdTimeLe b a = true := by
  cases a with
  | t v =>
      cases b with
      | t w =>
          simp only [pdTimeLe, decide_eq_true_eq]
          exact Int.le_total v w
      | nat => simp [pdTimeLe]
  | nat =>
      cases b with
      | t w => simp [pdTimeLe]
      | nat => simp [pdTimeLe]

theorem pdTimeLe_trans (a b c : PdTime) (h1 : pdTimeLe a b = true)
    (h2 : pdTimeLe b c = true) : pdTimeLe a c = true := by
  cases a <;> cases b <;> cases c <;> simp_all [pdTimeLe]
  omega

theorem rowPdLe_total (a b : RowPd) :
    rowPdLe a b = true ∨ rowPdLe b a = true :=
  pdTimeLe_total a.1 b.1

theorem rowPdLe_trans (a b c : RowPd) (h1 : rowPdLe a b = true)
    (h2 : rowPdLe b c = true) : rowPdLe a c = true :=
  pdTimeLe_trans a.1 b.1 c.1 h1 h2

-- ==============================================================
-- Claim C5
-- ==============================================================

/-- C5 counterexample: the API decoder accepts this document and
returns a series containing a row with the null NaT timestamp (its
start element is present with missing text) and a row with the null
NaN revenue value (its quantity text parses to NaN). -/
theorem C5_null_entries_counterexample :
    parse_entsoe_api_xml_pd toDTs (some docNullOut) =
      .ok [(.t 0, PdVal.nan), (PdTime.nat, PdVal.q (mkRat 5 1))] ∧
    (∃ r ∈ [((PdTime.t 0 : PdTime), PdVal.nan),
        (PdTime.nat, PdVal.q (mkRat 5 1))], r.1 = PdTime.nat) ∧
    (∃ r ∈ [((PdTime.t 0 : PdTime), PdVal.nan),
        (PdTime.nat, PdVal.q (mkRat 5 1))], r.2 = PdVal.nan) :=
  ⟨by rfl, by decide, by decide⟩

/-- C5 (amended): for every input either decoder accepts, the returned
series is sorted in non-decreasing timestamp order (NaT ordered after
every real instant) and duplicate timestamps are preserved: the output
rows are a permutation of the collected rows, never a deduplication.
The no-null guarantee holds for the legacy decoder, whose dropna
removes every row with a null Start or RevenueEUR; the API decoder
gives no such guarantee, since NaT timestamps and NaN values flow into
its output. -/
theorem C5_sorted_nodedup_amended (toDT : String → Int)
    (parseDT : String → Option Int) :
    (∀ doc rows, parse_entsoe_api_xml_pd toDT doc = .ok rows →
      rows.Pairwise (fun a b => pdTimeLe a.1 b.1 = true) ∧
      ∃ root raw, doc = some root ∧
        seriesRowsPd toDT (findallDesc root "TimeSeries") = .ok raw ∧
        rows.Perm raw)
  ∧ (∀ f df, parse_congestion_income_file parseDT f = .ok df →
      df.cols = ["Start", "End", "RevenueEUR"] ∧
      df.rows.Pairwise (fun r r' =>
        cellKey (r.getD 0 .null) ≤ cellKey (r'.getD 0 .null)) ∧
      (∀ r ∈ df.rows,
        r.getD 0 Cell.null ≠ Cell.null ∧ r.getD 2 Cell.null ≠ Cell.null) ∧
      ∃ d5, df.rows.Perm d5.rows ∧
        (∃ dfb d4, loadBranch f = .ok dfb ∧
          dropnaStartRev (coerceIfPresent "RevenueEUR" coerceNum
            (coerceIfPresent "End" (coerceDT parseDT)
              (coerceIfPresent "Start" (coerceDT parseDT) dfb))) = .ok d4 ∧
          selectCols ["Start", "End", "RevenueEUR"] d4 = .ok d5)) := by
  constructor
  · intro doc rows h
    cases doc with
    | none =>
        simp only [parse_entsoe_api_xml_pd] at h
        exact Except.noConfusion h
    | some root =>
        by_cases hemp : findallDesc root "TimeSeries" = []
        · simp [parse_entsoe_api_xml_pd, hemp] at h
        · have hne : (findallDesc root "TimeSeries").isEmpty = false := by
            simpa [List.isEmpty_iff] using hemp
          cases hs : seriesRowsPd toDT (findallDesc root "TimeSeries") with
          | error e => simp [parse_entsoe_api_xml_pd, hne, hs] at h
          | ok raw =>
              by_cases hre : raw = []
              · subst hre
                simp [parse_entsoe_api_xml_pd, hne, hs] at h
              · have hrne : raw.isEmpty = false := by
                  simpa [List.isEmpty_iff] using hre
                simp only [parse_entsoe_api_xml_pd, hne, hs, hrne,
                  Bool.false_eq_true, if_false, Except.ok.injEq] at h
                subst h
                refine ⟨sortByLe_pairwise rowPdLe rowPdLe_total
                  rowPdLe_trans raw, root, raw, rfl, hs,
                  sortByLe_perm rowPdLe raw⟩
  · intro f df h
    rw [parse_congestion_income_file] at h
    cases hb : loadBranch f with
    | error e =>
        simp only [hb] at h
        exact Except.noConfusion h
    | ok dfb =>
        simp only [hb, cleanDf] at h
        cases hdrop : dropnaStartRev
            (coerceIfPresent "RevenueEUR" coerceNum
              (coerceIfPresent "End" (coerceDT parseDT)
                (coerceIfPresent "Start" (coerceDT parseDT) dfb))) with
        | error e =>
            simp only [hdrop] at h
            exact Except.noConfusion h
        | ok d4 =>
            simp only [hdrop] at h
            cases hsel : selectCols ["Start", "End", "RevenueEUR"] d4 with
            | error e =>
                simp only [hsel] at h
                exact Except.noConfusion h
            | ok d5 =>
                simp only [hsel] at h
                obtain ⟨hd5cols, hd5rows⟩ := selectCols_ok _ d4 d5 hsel
                have h0 : colIdx? d5 "Start" = some 0 := by
                  rw [colIdx?, hd5cols]
                  rfl
                rw [sortValuesBy_ok "Start" d5 0 h0] at h
                have hdf := Except.ok.inj h
                subst hdf
                obtain ⟨i, j, hi, hj, hc4, hr4⟩ :=
                  dropnaStartRev_ok _ d4 hdrop
                refine ⟨hd5cols, sortByKey_pairwise _ d5.rows, ?_, d5,
                  sortByKey_perm _ d5.rows, dfb, d4, rfl, hdrop, hsel⟩
                intro r hr
                have hr5 : r ∈ d5.rows :=
                  ((sortByKey_perm _ d5.rows).mem_iff).mp hr
                rw [hd5rows] at hr5
                obtain ⟨r0, hr0, rfl⟩ := List.mem_map.mp hr5
                rw [hr4] at hr0
                have hr0' := List.mem_filter.mp hr0
                have hp2 := hr0'.2
                rw [Bool.and_eq_true, Bool.not_eq_true', Bool.not_eq_true']
                  at hp2
                have hi4 : colIdx? d4 "Start" = some i := by
                  rw [colIdx_congr _ _ _ hc4]
                  exact hi
                have hj4 : colIdx? d4 "RevenueEUR" = some j := by
                  rw [colIdx_congr _ _ _ hc4]
                  exact hj
                constructor
                · have hget : (["Start", "End", "RevenueEUR"].map
                      (cellAt d4 r0)).getD 0 Cell.null =
                      cellAt d4 r0 "Start" := rfl
                  rw [hget, cellAt, hi4]
                  exact isNull_false_ne _ hp2.1
                · have hget : (["Start", "End", "RevenueEUR"].map
                      (cellAt d4 r0)).getD 2 Cell.null =
                      cellAt d4 r0 "RevenueEUR" := rfl
                  rw [hget, cellAt, hj4]
                  exact isNull_false_ne _ hp2.2

/-- Closed instance of C5 (amended): the nullable-output document is
decoded to a sorted permutation of its collected rows, and the
concrete CSV fixture keeps the legacy no-null guarantee. -/
theorem C5_sorted_nodedup_amended_witness :
    (List.Pairwise (fun a b => pdTimeLe a.1 b.1 = true)
        [((PdTime.t 0 : PdTime), PdVal.nan),
         (PdTime.nat, PdVal.q (mkRat 5 1))] ∧
      ∃ root raw, some docNullOut = some root ∧
        seriesRowsPd toDTs (findallDesc root "TimeSeries") = .ok raw ∧
        List.Perm [((PdTime.t 0 : PdTime), PdVal.nan),
          (PdTime.nat, PdVal.q (mkRat 5 1))] raw)
  ∧ (outDf0.cols = ["Start", "End", "RevenueEUR"] ∧
      outDf0.rows.Pairwise (fun r r' =>
        cellKey (r.getD 0 .null) ≤ cellKey (r'.getD 0 .null)) ∧
      (∀ r ∈ outDf0.rows,
        r.getD 0 Cell.null ≠ Cell.null ∧ r.getD 2 Cell.null ≠ Cell.null) ∧
      ∃ d5, outDf0.rows.Perm d5.rows ∧
        (∃ dfb d4, loadBranch file0 = .ok dfb ∧
          dropnaStartRev (coerceIfPresent "RevenueEUR" coerceNum
            (coerceIfPresent "End" (coerceDT parseDT0)
              (coerceIfPresent "Start" (coerceDT parseDT0) dfb))) = .ok d4 ∧
          selectCols ["Start", "End", "RevenueEUR"] d4 = .ok d5)) :=
  ⟨(C5_sorted_nodedup_amended toDTs parseDT0).1 (some docNullOut)
     [(.t 0, PdVal.nan), (PdTime.nat, PdVal.q (mkRat 5 1))] (by rfl),
   (C5_sorted_nodedup_amended toDTs parseDT0).2 file0 outDf0 (by rfl)⟩
